import Mathlib

/-!
Verification of the jewellery e-commerce storefront admin/product client
against its design document: a shallow embedding in Lean 4 of the admin
panel (filtering, pagination, stock classification, mock data), the
local-storage adapter (quota-aware save), the image-ingestion pipeline
(size-based branching, aspect-preserving resize arithmetic), the API
clients (error/fallback behaviour) and the HTML-escaping helper, together
with theorems settling the documented properties.
-/

/-! ## String helpers (JS `toLowerCase` / `includes`) -/

/-- JS `String.prototype.toLowerCase` restricted to the ASCII strings this
codebase uses. -/
def jsToLower (s : String) : String :=
  String.mk (s.data.map Char.toLower)

/-- Substring containment on character lists, mirroring JS
`String.prototype.includes` (empty needle always matches). -/
def listIncludes (needle : List Char) : List Char → Bool
  | [] => needle.isEmpty
  | c :: rest => needle.isPrefixOf (c :: rest) || listIncludes needle rest

/-- JS `hay.includes(needle)`. -/
def jsIncludes (hay needle : String) : Bool :=
  listIncludes needle.data hay.data

/-! ## Admin-panel data model (`AdminPanel` in the admin script) -/

/-- A product record as held in `AdminPanel.products`. -/
structure Product where
  id : Nat
  name : String
  category : String
  price : Nat
  stock : Int
  description : String
  image : String
deriving DecidableEq, Repr, Inhabited

/-- Constant `AdminPanel.itemsPerPage` (fixed at `10`). -/
def itemsPerPage : Nat := 10

/-- The four sample products installed by `AdminPanel.loadMockProducts`. -/
def mockProducts : List Product :=
  [ { id := 1, name := "Golden Elegance Necklace", category := "necklaces",
      price := 40000, stock := 15,
      description := "Handcrafted in 18K gold with dazzling diamonds",
      image := "images/necklace_1.png" },
    { id := 2, name := "Diamond Ring", category := "rings",
      price := 950, stock := 8,
      description := "Exquisite diamond ring with platinum setting",
      image := "images/necklace_2.png" },
    { id := 3, name := "Pearl Earrings", category := "earrings",
      price := 780, stock := 3,
      description := "Classic pearl earrings for elegant occasions",
      image := "images/necklace_3.png" },
    { id := 4, name := "Luxury Bracelet", category := "bracelets",
      price := 1100, stock := 12,
      description := "Sophisticated gold bracelet with intricate design",
      image := "images/necklace_4.png" } ]

/-- Embedding of `AdminPanel.getFilteredProducts`: the raw search-box text is lowercased,
then a product passes when the search term is empty or occurs in the
lowercased name or description, and the category filter is empty or equals
the product's category exactly. -/
def getFilteredProducts (searchInput categoryFilter : String)
    (products : List Product) : List Product :=
  let searchTerm := jsToLower searchInput
  products.filter (fun product =>
    (searchTerm.isEmpty
      || jsIncludes (jsToLower product.name) searchTerm
      || jsIncludes (jsToLower product.description) searchTerm)
    && (categoryFilter.isEmpty || product.category == categoryFilter))

/-- Embedding of `AdminPanel.getPaginatedProducts`: `products.slice((page-1)*10, page*10)`. -/
def getPaginatedProducts (currentPage : Nat) (products : List Product) :
    List Product :=
  (products.drop ((currentPage - 1) * itemsPerPage)).take itemsPerPage

/-- Embedding of `AdminPanel.getStockClass`. -/
def getStockClass (stock : Int) : String :=
  if stock ≤ 5 then "stock-low"
  else if stock ≤ 20 then "stock-medium"
  else "stock-high"

/-- The quantity `Math.ceil(totalItems / itemsPerPage)` as computed by
`AdminPanel.renderPagination` for a natural item count. -/
def totalPagesFor (totalItems : Nat) : Nat :=
  (totalItems + itemsPerPage - 1) / itemsPerPage

/-- Joining the page slices `(l.drop (i*10)).take 10` for `i < m` recovers
`l` whenever `m` pages suffice to hold all of `l`. -/
theorem pages_flatten_aux : ∀ (m : Nat) (l : List Product),
    l.length ≤ m * 10 →
    ((List.range m).map (fun i => (l.drop (i * 10)).take 10)).flatten = l := by
  intro m
  induction m with
  | zero =>
    intro l hl
    have hnil : l = [] := List.eq_nil_of_length_eq_zero (by omega)
    simp [hnil]
  | succ m ih =>
    intro l hl
    rw [List.range_succ_eq_map, List.map_cons, List.map_map]
    have hfun : ((fun i => (l.drop (i * 10)).take 10) ∘ Nat.succ)
        = fun i => (((l.drop 10).drop (i * 10)).take 10) := by
      funext i
      simp only [Function.comp]
      rw [List.drop_drop, (by omega : 10 + i * 10 = Nat.succ i * 10)]
    have hlen : (l.drop 10).length ≤ m * 10 := by
      simp only [List.length_drop]
      omega
    rw [hfun, List.flatten_cons, ih (l.drop 10) hlen]
    simp only [Nat.zero_mul, List.drop_zero]
    exact List.take_append_drop 10 l

/-- C8: for every product list `l` and page `p ≥ 1`, the paginated slice
has at most `itemsPerPage` elements, its `i`-th element is the
`(p-1)*itemsPerPage + i`-th element of `l`, and the slices for pages `1`
through `ceil(length / itemsPerPage)` concatenate back to `l` (no overlap,
no gap). -/
theorem getPaginatedProducts_spec (l : List Product) (p : Nat)
    (hp : 1 ≤ p) :
    (getPaginatedProducts p l).length ≤ itemsPerPage
    ∧ (∀ i, i < itemsPerPage →
        (getPaginatedProducts p l)[i]? = l[(p - 1) * itemsPerPage + i]?)
    ∧ ((List.range (totalPagesFor l.length)).map
        (fun i => getPaginatedProducts (i + 1) l)).flatten = l := by
  refine ⟨List.length_take_le _ _, ?_, ?_⟩
  · intro i hi
    unfold getPaginatedProducts
    rw [List.getElem?_take, if_pos hi]
    rw [List.getElem?_drop]
  · have hfun : (fun i => getPaginatedProducts (i + 1) l)
        = fun i => (l.drop (i * 10)).take 10 := by
      funext i
      unfold getPaginatedProducts itemsPerPage
      simp
    rw [hfun]
    apply pages_flatten_aux
    unfold totalPagesFor itemsPerPage
    have hdm := Nat.div_add_mod (l.length + 10 - 1) 10
    have hmod : (l.length + 10 - 1) % 10 < 10 := Nat.mod_lt _ (by omega)
    omega

/-- Witness for C8 at `l := mockProducts`, `p := 1`. -/
theorem getPaginatedProducts_spec_witness :
    1 ≤ 1
    ∧ ((getPaginatedProducts 1 mockProducts).length ≤ itemsPerPage
      ∧ (∀ i, i < itemsPerPage →
          (getPaginatedProducts 1 mockProducts)[i]?
            = mockProducts[(1 - 1) * itemsPerPage + i]?)
      ∧ ((List.range (totalPagesFor mockProducts.length)).map
          (fun i => getPaginatedProducts (i + 1) mockProducts)).flatten
          = mockProducts) :=
  ⟨le_refl 1, getPaginatedProducts_spec mockProducts 1 (le_refl 1)⟩

/-- C2 counterexample: the claim that searching "ring" over the 4 sample
products matches only the "Diamond Ring" product is false — "Pearl
Earrings" lowercases to "pearl earrings", which contains "ring" as a
substring, so two products match, not one. -/
theorem filter_ring_counterexample :
    (getFilteredProducts "ring" "" mockProducts).map (·.name)
      = ["Diamond Ring", "Pearl Earrings"]
    ∧ (getFilteredProducts "ring" "" mockProducts).length ≠ 1 := by
  constructor
  · decide
  · decide

/-- C2 (amended): filtering the four mock sample products with search term
"ring" and no category filter yields exactly two products, "Diamond Ring"
and "Pearl Earrings" (whose name contains "ring" as a substring of
"Earrings"). -/
theorem filter_ring_two_matches :
    getFilteredProducts "ring" "" mockProducts
      = [mockProducts.get ⟨1, by decide⟩, mockProducts.get ⟨2, by decide⟩] := by
  decide

/-- C9: `getStockClass` classifies a stock count `s` as low when `s ≤ 5`,
medium when `6 ≤ s ≤ 20`, and high when `s > 20`. -/
theorem getStockClass_spec (s : Int) :
    (s ≤ 5 → getStockClass s = "stock-low")
    ∧ (6 ≤ s ∧ s ≤ 20 → getStockClass s = "stock-medium")
    ∧ (20 < s → getStockClass s = "stock-high") := by
  unfold getStockClass
  refine ⟨?_, ?_, ?_⟩
  · intro h
    rw [if_pos h]
  · intro h
    rw [if_neg (by omega), if_pos (by omega)]
  · intro h
    rw [if_neg (by omega), if_neg (by omega)]

/-- Witness for C9 at stock counts 3, 10 and 25. -/
theorem getStockClass_spec_witness :
    getStockClass 3 = "stock-low"
    ∧ getStockClass 10 = "stock-medium"
    ∧ getStockClass 25 = "stock-high" :=
  ⟨(getStockClass_spec 3).1 (by decide),
   (getStockClass_spec 10).2.1 (by decide),
   (getStockClass_spec 25).2.2 (by decide)⟩

/-! ## Image-ingestion pipeline (`resizeImageFileToDataURL`,
`convertFileForStorage` in the local-admin script) -/

/-- JS `Math.round` on a rational: round half toward positive infinity. -/
def jsRound (q : ℚ) : ℤ := ⌊q + 1 / 2⌋

/-- The scale factor `Math.min(1, maxWidth / w, maxHeight / h)` computed by
`resizeImageFileToDataURL` for a source image of width `w` and height `h`. -/
def scaleRatio (maxWidth maxHeight w h : ℚ) : ℚ :=
  min 1 (min (maxWidth / w) (maxHeight / h))

/-- Output canvas width `Math.round(w * ratio)` at the default bounds
`1000 × 1000`. -/
def resizedWidth (w h : Nat) : ℤ :=
  jsRound (w * scaleRatio 1000 1000 w h)

/-- Output canvas height `Math.round(h * ratio)` at the default bounds
`1000 × 1000`. -/
def resizedHeight (w h : Nat) : ℤ :=
  jsRound (h * scaleRatio 1000 1000 w h)

/-- Rounding moves a rational by at most `1/2`. -/
theorem jsRound_close (q : ℚ) : |(jsRound q : ℚ) - q| ≤ 1 / 2 := by
  have h1 : ((⌊q + 1 / 2⌋ : ℤ) : ℚ) ≤ q + 1 / 2 := Int.floor_le _
  have h2 : q + 1 / 2 < ((⌊q + 1 / 2⌋ : ℤ) : ℚ) + 1 := Int.lt_floor_add_one _
  unfold jsRound
  rw [abs_le]
  constructor
  · linarith
  · linarith

/-- A rational at most `1000` rounds to an integer at most `1000`. -/
theorem jsRound_le_1000 {q : ℚ} (hq : q ≤ 1000) : jsRound q ≤ 1000 := by
  have h1 : ((⌊q + 1 / 2⌋ : ℤ) : ℚ) ≤ q + 1 / 2 := Int.floor_le _
  have h2 : ((⌊q + 1 / 2⌋ : ℤ) : ℚ) < 1001 := by linarith
  have h3 : (⌊q + 1 / 2⌋ : ℤ) < 1001 := by exact_mod_cast h2
  unfold jsRound
  omega

/-- C6: for every source image with positive dimensions, the resize scale
factor `min(1, 1000/w, 1000/h)` never exceeds `1` (no upscaling), the
rounded output dimensions fit within `1000 × 1000`, and the aspect ratio
is preserved within rounding: the cross products of the output and input
dimensions differ by at most `(w + h) / 2`. -/
theorem resize_no_upscale_fits (w h : Nat) (hw : 0 < w) (hh : 0 < h) :
    scaleRatio 1000 1000 w h ≤ 1
    ∧ resizedWidth w h ≤ 1000
    ∧ resizedHeight w h ≤ 1000
    ∧ |(resizedWidth w h : ℚ) * h - (resizedHeight w h : ℚ) * w|
        ≤ ((w : ℚ) + h) / 2 := by
  have hwq : (0 : ℚ) < w := by exact_mod_cast hw
  have hhq : (0 : ℚ) < h := by exact_mod_cast hh
  set r := scaleRatio 1000 1000 w h with hr
  have hr1 : r ≤ 1 := min_le_left _ _
  have hrw : r ≤ 1000 / w := le_trans (min_le_right _ _) (min_le_left _ _)
  have hrh : r ≤ 1000 / h := le_trans (min_le_right _ _) (min_le_right _ _)
  have hwr : (w : ℚ) * r ≤ 1000 := by
    have := mul_le_mul_of_nonneg_left hrw (le_of_lt hwq)
    rwa [mul_div_cancel₀ _ (ne_of_gt hwq)] at this
  have hhr : (h : ℚ) * r ≤ 1000 := by
    have := mul_le_mul_of_nonneg_left hrh (le_of_lt hhq)
    rwa [mul_div_cancel₀ _ (ne_of_gt hhq)] at this
  refine ⟨hr1, jsRound_le_1000 hwr, jsRound_le_1000 hhr, ?_⟩
  have hx := jsRound_close ((w : ℚ) * r)
  have hy := jsRound_close ((h : ℚ) * r)
  rw [abs_le] at hx hy ⊢
  have hxw : resizedWidth w h = jsRound ((w : ℚ) * r) := rfl
  have hyh : resizedHeight w h = jsRound ((h : ℚ) * r) := rfl
  rw [hxw, hyh]
  set x := (jsRound ((w : ℚ) * r) : ℚ) - (w : ℚ) * r with hxdef
  set y := (jsRound ((h : ℚ) * r) : ℚ) - (h : ℚ) * r with hydef
  have hexp : (jsRound ((w : ℚ) * r) : ℚ) * h - (jsRound ((h : ℚ) * r) : ℚ) * w
      = x * h - y * w := by
    rw [hxdef, hydef]
    ring
  rw [hexp]
  have b1 : x * h ≤ (1 / 2) * h := mul_le_mul_of_nonneg_right hx.2 (le_of_lt hhq)
  have b2 : -((1 / 2) * h) ≤ x * h := by
    have := mul_le_mul_of_nonneg_right hx.1 (le_of_lt hhq)
    linarith [this]
  have b3 : y * w ≤ (1 / 2) * w := mul_le_mul_of_nonneg_right hy.2 (le_of_lt hwq)
  have b4 : -((1 / 2) * w) ≤ y * w := by
    have := mul_le_mul_of_nonneg_right hy.1 (le_of_lt hwq)
    linarith [this]
  constructor
  · linarith
  · linarith

/-- Witness for C6 at a `2000 × 500` source image. -/
theorem resize_no_upscale_fits_witness :
    0 < 2000 ∧ 0 < 500
    ∧ (scaleRatio 1000 1000 2000 500 ≤ 1
      ∧ resizedWidth 2000 500 ≤ 1000
      ∧ resizedHeight 2000 500 ≤ 1000
      ∧ |(resizedWidth 2000 500 : ℚ) * 500 - (resizedHeight 2000 500 : ℚ) * 2000|
          ≤ ((2000 : ℚ) + 500) / 2) := by
  refine ⟨by norm_num, by norm_num, ?_⟩
  have h := resize_no_upscale_fits 2000 500 (by norm_num) (by norm_num)
  simpa using h

/-- A selected file, abstracted to the one attribute the storage-conversion
branch inspects: its byte size. -/
structure JsFile where
  size : Nat
deriving DecidableEq, Repr

/-- Embedding of `convertFileForStorage`: branches on `file.size > 200 * 1024`.  The
promise results of the image encoders are modelled as `Option String`
parameters (`none` = the promise rejected): `resized` is the outcome of
`resizeImageFileToDataURL(file, 1000, 1000, 0.7)`, `rawDirect` the outcome
of the direct `fileToDataURL(file)` call taken in the small-file branch,
and `rawFallback` the outcome of the `fileToDataURL(file)` retry performed
in the `catch` fallback.  A missing file resolves to the empty string. -/
def convertFileForStorage (resized rawDirect rawFallback : Option String)
    (file : Option JsFile) : String :=
  match file with
  | none => ""
  | some f =>
    if 200 * 1024 < f.size then
      match resized with
      | some s => s
      | none =>
        match rawFallback with
        | some s => s
        | none => ""
    else
      match rawDirect with
      | some s => s
      | none =>
        match rawFallback with
        | some s => s
        | none => ""

/-- C7: a file of at most 200 KiB (204800 bytes) is encoded by the direct
raw encoder; a larger file goes through the resize-compress encoder; if
the resize path fails the fallback raw encoding is used, and if that also
fails the empty string is returned; a missing file yields the empty
string. -/
theorem convertFileForStorage_spec
    (resized rawDirect rawFallback : Option String) (f : JsFile) :
    (f.size ≤ 204800 → ∀ s, rawDirect = some s →
      convertFileForStorage resized rawDirect rawFallback (some f) = s)
    ∧ (204800 < f.size → ∀ s, resized = some s →
      convertFileForStorage resized rawDirect rawFallback (some f) = s)
    ∧ (204800 < f.size → resized = none →
      convertFileForStorage resized rawDirect rawFallback (some f)
        = rawFallback.getD "")
    ∧ convertFileForStorage resized rawDirect rawFallback none = "" := by
  refine ⟨?_, ?_, ?_, rfl⟩
  · intro hsize s hs
    simp only [convertFileForStorage]
    rw [if_neg (by omega), hs]
  · intro hsize s hs
    simp only [convertFileForStorage]
    rw [if_pos (by omega), hs]
  · intro hsize hres
    simp only [convertFileForStorage]
    rw [if_pos (by omega), hres]
    cases rawFallback with
    | none => rfl
    | some s => rfl

/-- Witness for C7: a 50 KiB file takes the direct path, a 500 KiB file
the resize path, and a large file with both encoders failing yields the
empty string. -/
theorem convertFileForStorage_spec_witness :
    convertFileForStorage (some "R") (some "D") (some "F")
        (some { size := 51200 }) = "D"
    ∧ convertFileForStorage (some "R") (some "D") (some "F")
        (some { size := 512000 }) = "R"
    ∧ convertFileForStorage none (some "D") none
        (some { size := 512000 }) = Option.getD none ""
    ∧ convertFileForStorage (some "R") (some "D") (some "F") none = "" :=
  ⟨(convertFileForStorage_spec (some "R") (some "D") (some "F")
      { size := 51200 }).1 (by decide) "D" rfl,
   (convertFileForStorage_spec (some "R") (some "D") (some "F")
      { size := 512000 }).2.1 (by decide) "R" rfl,
   (convertFileForStorage_spec none (some "D") none
      { size := 512000 }).2.2.1 (by decide) rfl,
   (convertFileForStorage_spec (some "R") (some "D") (some "F")
      { size := 51200 }).2.2.2⟩

/-! ## HTML escaping (`escapeHtml` in the local-admin script) -/

/-- The per-character replacement performed by
`String(str).replace(/[&<>"']/g, m => ({...}[m]))`. -/
def escapeHtmlChar (c : Char) : List Char :=
  if c = '&' then "&amp;".data
  else if c = '<' then "&lt;".data
  else if c = '>' then "&gt;".data
  else if c = '"' then "&quot;".data
  else if c = '\'' then "&#39;".data
  else [c]

/-- Embedding of `escapeHtml`: `String(str || '')` with each of `& < > " '` replaced by
its entity; a null/undefined argument (modelled as `none`) gives `''`. -/
def escapeHtml (str : Option String) : String :=
  match str with
  | none => ""
  | some s => String.mk (s.data.flatMap escapeHtmlChar)

/-- The entity tails that may legitimately follow a `&` in escaped output. -/
def entityTails : List (List Char) :=
  ["amp;".data, "lt;".data, "gt;".data, "quot;".data, "#39;".data]

/-- Checks that every `&` in the character list starts one of the five
entities `&amp; &lt; &gt; &quot; &#39;`. -/
def ampEntitiesOk : List Char → Bool
  | [] => true
  | c :: rest =>
    if c = '&' then
      entityTails.any (fun e => e.isPrefixOf rest) && ampEntitiesOk rest
    else ampEntitiesOk rest

/-- Checks that none of the raw characters `< > " '` occurs. -/
def noRawSpecials (l : List Char) : Bool :=
  l.all (fun c => !(c = '<' || c = '>' || c = '"' || c = '\''))

theorem noRawSpecials_escape (c : Char) (l : List Char) :
    noRawSpecials (escapeHtmlChar c ++ l) = noRawSpecials l := by
  unfold escapeHtmlChar
  split_ifs with h1 h2 h3 h4 h5
  · subst h1
    simp [noRawSpecials]
  · subst h2
    simp [noRawSpecials]
  · subst h3
    simp [noRawSpecials]
  · subst h4
    simp [noRawSpecials]
  · subst h5
    simp [noRawSpecials]
  · simp [noRawSpecials, h2, h3, h4, h5]

theorem ampEntitiesOk_escape (c : Char) (l : List Char) :
    ampEntitiesOk (escapeHtmlChar c ++ l) = ampEntitiesOk l := by
  unfold escapeHtmlChar
  split_ifs with h1 h2 h3 h4 h5
  · subst h1
    simp [ampEntitiesOk, entityTails, List.isPrefixOf]
  · subst h2
    simp [ampEntitiesOk, entityTails, List.isPrefixOf]
  · subst h3
    simp [ampEntitiesOk, entityTails, List.isPrefixOf]
  · subst h4
    simp [ampEntitiesOk, entityTails, List.isPrefixOf]
  · subst h5
    simp [ampEntitiesOk, entityTails, List.isPrefixOf]
  · simp [ampEntitiesOk, h1]

/-- C10: the escaped output contains no raw `< > " '`, every `&` in it
starts one of the entities `&amp; &lt; &gt; &quot; &#39;`, and a
null/undefined input yields the empty string. -/
theorem escapeHtml_spec (str : Option String) :
    noRawSpecials (escapeHtml str).data = true
    ∧ ampEntitiesOk (escapeHtml str).data = true
    ∧ escapeHtml none = "" := by
  refine ⟨?_, ?_, rfl⟩
  · cases str with
    | none => rfl
    | some s =>
      show noRawSpecials (s.data.flatMap escapeHtmlChar) = true
      induction s.data with
      | nil => rfl
      | cons c cs ih =>
        rw [List.flatMap_cons, noRawSpecials_escape]
        exact ih
  · cases str with
    | none => rfl
    | some s =>
      show ampEntitiesOk (s.data.flatMap escapeHtmlChar) = true
      induction s.data with
      | nil => rfl
      | cons c cs ih =>
        rw [List.flatMap_cons, ampEntitiesOk_escape]
        exact ih

/-! ## Local store adapter (`safeParse`/`loadLocal`/`safeSaveLocal` in the
local-admin script) -/

/-- A stored record, abstracted to its identifier and its serialized size
in bytes. -/
structure StoredRec where
  id : Nat
  bytes : Nat
deriving DecidableEq, Repr

/-- The browser `localStorage`, modelled as an association list from keys
to stored arrays. -/
abbrev LocalStore := List (String × List StoredRec)

/-- Embedding of `safeParse(localStorage.getItem(key))`: the stored array under `key`,
or `[]` when the key is absent (or its JSON is malformed). -/
def getItem (st : LocalStore) (key : String) : List StoredRec :=
  match st.find? (fun e => e.1 == key) with
  | some e => e.2
  | none => []

/-- Serialized size in bytes of a stored array. -/
def arrBytes (arr : List StoredRec) : Nat :=
  (arr.map (·.bytes)).sum

/-- Total bytes held by the store. -/
def storeBytes (st : LocalStore) : Nat :=
  (st.map (fun e => arrBytes e.2)).sum

/-- Rebind `key` to `arr`, replacing any previous binding. -/
def bindItem (st : LocalStore) (key : String) (arr : List StoredRec) :
    LocalStore :=
  (key, arr) :: st.filter (fun e => !(e.1 == key))

/-- Embedding of `localStorage.setItem(key, JSON.stringify(arr))` under the byte quota
`quota`: succeeds with the updated store when it fits, and throws
`QuotaExceededError` (modelled as `none`) otherwise. -/
def setItem (quota : Nat) (st : LocalStore) (key : String)
    (arr : List StoredRec) : Option LocalStore :=
  let st' := bindItem st key arr
  if storeBytes st' ≤ quota then some st' else none

/-- Embedding of `safeSaveLocal(key, arr)` returning the pair (returned boolean,
resulting store); `false` corresponds to the paths that show the blocking
alert.  Note: the source computes the name of the *other* collection
(`const other = ...`) but never uses it — the recovery reads, truncates
and rewrites the array stored under `key` itself, then retries the
original write once inside the inner `try`, whose exception is ignored. -/
def safeSaveLocal (quota : Nat) (st : LocalStore) (key : String)
    (arr : List StoredRec) : Bool × LocalStore :=
  match setItem quota st key arr with
  | some st1 => (true, st1)
  | none =>
    let existing := getItem st key
    if 2 < existing.length then
      let keep := existing.take (max 1 (existing.length / 2))
      match setItem quota st key keep with
      | some st1 =>
        match setItem quota st1 key arr with
        | some st2 => (true, st2)
        | none => (false, st1)
      | none => (false, st)
    else
      (false, st)

theorem find_key_filter (st : LocalStore) (key other : String)
    (h : other ≠ key) :
    (st.filter (fun e => !(e.1 == key))).find? (fun e => e.1 == other)
      = st.find? (fun e => e.1 == other) := by
  induction st with
  | nil => rfl
  | cons e rest ih =>
    by_cases h1 : e.1 = key
    · have hne : (e.1 == other) = false := by
        rw [beq_eq_false_iff_ne]
        rw [h1]
        exact fun hco => h hco.symm
      rw [List.filter_cons, if_neg (by simp [h1]), List.find?_cons, hne, ih]
    · rw [List.filter_cons, if_pos (by simp [h1])]
      by_cases h2 : e.1 = other
      · rw [List.find?_cons, List.find?_cons, (by simp [h2] : (e.1 == other) = true)]
      · rw [List.find?_cons, List.find?_cons, (by simp [h2] : (e.1 == other) = false), ih]

theorem getItem_bindItem_ne (st : LocalStore) (key other : String)
    (arr : List StoredRec) (h : other ≠ key) :
    getItem (bindItem st key arr) other = getItem st other := by
  unfold getItem bindItem
  have hke : ((key, arr).1 == other) = false := by
    rw [beq_eq_false_iff_ne]
    exact fun hk => h hk.symm
  rw [List.find?_cons, hke, find_key_filter st key other h]

theorem bindItem_bindItem (st : LocalStore) (key : String)
    (v w : List StoredRec) :
    bindItem (bindItem st key v) key w = bindItem st key w := by
  unfold bindItem
  rw [List.filter_cons, if_neg (by simp), List.filter_filter]
  congr 1
  apply List.filter_congr
  intro e _
  simp

/-- Overwriting `key` again makes the intermediate binding irrelevant: in
particular a retried `setItem` sees exactly the quota situation of the
original failed write. -/
theorem setItem_after_rebind (quota : Nat) (st : LocalStore) (key : String)
    (v w : List StoredRec) :
    setItem quota (bindItem st key v) key w = setItem quota st key w := by
  unfold setItem
  rw [bindItem_bindItem]

/-- C1 counterexample data: products hold 4 records of 2 bytes each,
categories 4 records of 1 byte each, and 4 records of 3 bytes are saved
under a 15-byte quota, so the first write and the retry both overflow. -/
def demoProducts : List StoredRec :=
  [⟨1, 2⟩, ⟨2, 2⟩, ⟨3, 2⟩, ⟨4, 2⟩]

def demoCategories : List StoredRec :=
  [⟨11, 1⟩, ⟨12, 1⟩, ⟨13, 1⟩, ⟨14, 1⟩]

def demoStore : LocalStore :=
  [("local-products", demoProducts), ("local-categories", demoCategories)]

def demoArr : List StoredRec :=
  [⟨5, 3⟩, ⟨6, 3⟩, ⟨7, 3⟩, ⟨8, 3⟩]

/-- C1 counterexample: saving the products collection fails on quota, yet
the categories collection (the *other* collection) is left completely
untouched — it still has all 4 entries, not 2 — while the *products*
array itself is the one truncated to half. -/
theorem safeSaveLocal_counterexample :
    setItem 15 demoStore "local-products" demoArr = none
    ∧ (safeSaveLocal 15 demoStore "local-products" demoArr).1 = false
    ∧ getItem (safeSaveLocal 15 demoStore "local-products" demoArr).2
        "local-categories" = demoCategories
    ∧ (getItem (safeSaveLocal 15 demoStore "local-products" demoArr).2
        "local-categories").length ≠ 2
    ∧ getItem (safeSaveLocal 15 demoStore "local-products" demoArr).2
        "local-products" = demoProducts.take 2 := by
  refine ⟨?_, ?_, ?_, ?_, ?_⟩ <;> decide

/-- C1 (amended): when a save under `key` fails with a quota error and the
array stored under `key` has more than 2 entries, the adapter truncates
that *same* collection to `max 1 (n / 2)` entries keeping the front of the
stored array, retries the write once — a retry that necessarily fails
again, since rewriting the same key frees no space for it — so the write
is abandoned, the blocking alert is shown and `false` is returned; every
other key's stored array is untouched. -/
theorem safeSaveLocal_quota_recovery (quota : Nat) (st : LocalStore)
    (key : String) (arr : List StoredRec)
    (hfail : setItem quota st key arr = none)
    (hlen : 2 < (getItem st key).length) :
    (safeSaveLocal quota st key arr).1 = false
    ∧ (∀ other, other ≠ key →
        getItem (safeSaveLocal quota st key arr).2 other = getItem st other)
    ∧ (∀ st1, setItem quota st key
          ((getItem st key).take (max 1 ((getItem st key).length / 2)))
          = some st1 →
        (safeSaveLocal quota st key arr).2
          = bindItem st key
              ((getItem st key).take (max 1 ((getItem st key).length / 2))))
    ∧ (setItem quota st key
          ((getItem st key).take (max 1 ((getItem st key).length / 2)))
          = none →
        (safeSaveLocal quota st key arr).2 = st) := by
  set keep := (getItem st key).take (max 1 ((getItem st key).length / 2))
    with hkeep
  have hres : safeSaveLocal quota st key arr
      = match setItem quota st key keep with
        | some st1 => (false, st1)
        | none => (false, st) := by
    unfold safeSaveLocal
    rw [hfail]
    simp only
    rw [if_pos hlen]
    cases htr : setItem quota st key keep with
    | none => rfl
    | some st1 =>
      have hst1 : st1 = bindItem st key keep := by
        unfold setItem at htr
        simp only at htr
        split at htr
        · exact (Option.some.injEq _ _ ▸ htr).symm
        · exact absurd htr (by simp)
      show (match setItem quota st1 key arr with
            | some st2 => (true, st2)
            | none => (false, st1)) = (false, st1)
      rw [hst1, setItem_after_rebind, hfail]
  cases htr : setItem quota st key keep with
  | none =>
    rw [htr] at hres
    refine ⟨by rw [hres], ?_, ?_, fun _ => by rw [hres]⟩
    · intro other hother
      rw [hres]
    · intro st1 hst1
      exact absurd hst1 (by simp)
  | some st1 =>
    rw [htr] at hres
    have hst1 : st1 = bindItem st key keep := by
      unfold setItem at htr
      simp only at htr
      split at htr
      · exact (Option.some.injEq _ _ ▸ htr).symm
      · exact absurd htr (by simp)
    refine ⟨by rw [hres], ?_, ?_, ?_⟩
    · intro other hother
      rw [hres]
      simp only
      rw [hst1, getItem_bindItem_ne st key other _ hother]
    · intro st2 hst2
      rw [hres, hst1]
    · intro hnone
      exact absurd hnone (by simp)

/-- Witness for C1 (amended) at the demo store. -/
theorem safeSaveLocal_quota_recovery_witness :
    setItem 15 demoStore "local-products" demoArr = none
    ∧ 2 < (getItem demoStore "local-products").length
    ∧ (safeSaveLocal 15 demoStore "local-products" demoArr).1 = false
    ∧ getItem (safeSaveLocal 15 demoStore "local-products" demoArr).2
        "local-categories" = getItem demoStore "local-categories" :=
  ⟨by decide, by decide,
   (safeSaveLocal_quota_recovery 15 demoStore "local-products" demoArr
      (by decide) (by decide)).1,
   (safeSaveLocal_quota_recovery 15 demoStore "local-products" demoArr
      (by decide) (by decide)).2.1 "local-categories" (by decide)⟩

/-! ## Local product add/delete (`addProductForm` submit handler and
`renderProductsList` delete handler in the local-admin script) -/

/-- A locally stored product, abstracted to the payload fields relevant to
identity. -/
structure LocalProduct where
  id : Nat
  title : String
deriving DecidableEq, Repr

/-- One user operation on the locally stored product collection: an add
submitted when `Date.now()` reads `now` (the payload id is `Date.now()`),
or a delete of a given id. -/
inductive LocalOp
  | add (now : Nat) (title : String)
  | del (targetId : Nat)
deriving DecidableEq, Repr

/-- The add handler unshifts `{ id: Date.now(), ... }`; the delete handler
keeps exactly the records whose id differs from the deleted one. -/
def applyLocalOp (arr : List LocalProduct) : LocalOp → List LocalProduct
  | .add now title => { id := now, title := title } :: arr
  | .del targetId => arr.filter (fun p => p.id != targetId)

/-- The stored collection after running `ops` from an empty store. -/
def runLocalOps (ops : List LocalOp) : List LocalProduct :=
  ops.foldl applyLocalOp []

/-- The `Date.now()` readings of the add operations in `ops`. -/
def addTimes (ops : List LocalOp) : List Nat :=
  ops.filterMap (fun op =>
    match op with
    | .add now _ => some now
    | .del _ => none)

/-- C4 counterexample: two adds submitted in the same millisecond receive
the same `Date.now()` id, so the stored collection has a duplicate id. -/
theorem sameMillisecond_ids_counterexample :
    (runLocalOps [.add 1700000000000 "Ring",
                  .add 1700000000000 "Necklace"]).map (·.id)
      = [1700000000000, 1700000000000]
    ∧ ¬ ((runLocalOps [.add 1700000000000 "Ring",
                       .add 1700000000000 "Necklace"]).map (·.id)).Nodup := by
  refine ⟨?_, ?_⟩ <;> decide

theorem runLocalOps_nodup_aux : ∀ (ops : List LocalOp)
    (acc : List LocalProduct),
    (acc.map (·.id)).Nodup → (addTimes ops).Nodup →
    (∀ t ∈ addTimes ops, t ∉ acc.map (·.id)) →
    ((ops.foldl applyLocalOp acc).map (·.id)).Nodup := by
  intro ops
  induction ops with
  | nil =>
    intro acc h1 _ _
    exact h1
  | cons op rest ih =>
    intro acc h1 h2 h3
    cases op with
    | add now title =>
      have htimes : addTimes (.add now title :: rest) = now :: addTimes rest := by
        simp [addTimes]
      rw [htimes] at h2 h3
      rw [List.foldl_cons]
      apply ih
      · show ((({ id := now, title := title } : LocalProduct) :: acc).map (·.id)).Nodup
        rw [List.map_cons, List.nodup_cons]
        exact ⟨h3 now (List.mem_cons_self now _), h1⟩
      · exact (List.nodup_cons.mp h2).2
      · intro t ht
        simp only [applyLocalOp]
        rw [List.map_cons, List.mem_cons]
        rintro (htn | hta)
        · have hteq : t = now := htn
          exact (List.nodup_cons.mp h2).1 (hteq ▸ ht)
        · exact h3 t (List.mem_cons_of_mem _ ht) hta
    | del targetId =>
      have htimes : addTimes (.del targetId :: rest) = addTimes rest := by
        simp [addTimes]
      rw [htimes] at h2 h3
      rw [List.foldl_cons]
      apply ih
      · show (((acc.filter (fun p => p.id != targetId)).map (·.id)).Nodup)
        exact h1.sublist ((List.filter_sublist acc).map (·.id))
      · exact h2
      · intro t ht hmem
        rcases List.mem_map.mp hmem with ⟨p, hp, hpid⟩
        exact h3 t ht (List.mem_map.mpr ⟨p, (List.filter_sublist acc).subset hp, hpid⟩)

/-- C4 (amended): after any sequence of add and delete operations in which
the adds happen at pairwise-distinct `Date.now()` readings, the stored
collection has pairwise-distinct ids.  (Two adds in the same millisecond
share an id — see the counterexample.) -/
theorem runLocalOps_nodup_ids (ops : List LocalOp)
    (h : (addTimes ops).Nodup) :
    ((runLocalOps ops).map (·.id)).Nodup := by
  unfold runLocalOps
  exact runLocalOps_nodup_aux ops [] (by simp) h (by simp)

/-- Witness for C4 (amended): adds at distinct milliseconds, with an
interleaved delete, keep ids distinct. -/
theorem runLocalOps_nodup_ids_witness :
    (addTimes [.add 100 "a", .add 200 "b", .del 100, .add 300 "c"]).Nodup
    ∧ ((runLocalOps [.add 100 "a", .add 200 "b", .del 100,
        .add 300 "c"]).map (·.id)).Nodup :=
  ⟨by decide,
   runLocalOps_nodup_ids [.add 100 "a", .add 200 "b", .del 100, .add 300 "c"]
     (by decide)⟩

/-! ## API clients (`ProductManager.apiRequest` in `js/product.js`,
`AdminPanel.apiRequest` in the admin script) -/

/-- The observable outcome of one `fetch` attempt: a completed response
with its `response.ok` flag and parsed JSON body, a network error, or an
aborted wait (the product page aborts after 1500 ms; the admin panel sets
no timeout, so `timeout` there stands for the eventual failure of a wait
that never completes). -/
inductive FetchOutcome (α : Type)
  | completed (ok : Bool) (body : α)
  | netError
  | timeout
deriving DecidableEq, Repr

/-- The mock catalogue of `ProductManager.getMockProduct` in
`js/product.js` (its descriptions differ from the admin mock data). -/
def productPageMocks : List Product :=
  [ { id := 1, name := "Golden Elegance Necklace", category := "necklaces",
      price := 40000, stock := 0,
      description := "Handcrafted in 18K gold with dazzling diamonds, this necklace embodies timeless luxury.",
      image := "images/necklace_1.png" },
    { id := 2, name := "Diamond Ring", category := "rings",
      price := 950, stock := 0,
      description := "Exquisite diamond ring with platinum setting, perfect for special occasions.",
      image := "images/necklace_2.png" },
    { id := 3, name := "Pearl Earrings", category := "earrings",
      price := 780, stock := 0,
      description := "Classic pearl earrings for elegant occasions, crafted with attention to detail.",
      image := "images/necklace_3.png" },
    { id := 4, name := "Luxury Bracelet", category := "bracelets",
      price := 1100, stock := 0,
      description := "Sophisticated gold bracelet with intricate design, a statement piece for any outfit.",
      image := "images/necklace_4.png" } ]

/-- Embedding of `ProductManager.getMockProduct`: `mockProducts[this.productId] ||
mockProducts[1]`. -/
def getMockProduct (productId : Nat) : Product :=
  (productPageMocks.find? (fun p => p.id == productId)).getD
    (productPageMocks.headI)

/-- Embedding of `ProductManager.apiRequest`: any network error, non-2xx status or
timeout is caught and the mock product is returned — nothing is ever
propagated to the caller. -/
def productApiRequest (productId : Nat) :
    FetchOutcome Product → Product
  | .completed true body => body
  | .completed false _ => getMockProduct productId
  | .netError => getMockProduct productId
  | .timeout => getMockProduct productId

/-- Embedding of `AdminPanel.apiRequest`: a failed fetch or non-2xx response is caught,
an error notification is shown, and the error is **re-thrown**
(`throw error`), modelled as `Except.error ()`. -/
def adminApiRequest : FetchOutcome (List Product) → Except Unit (List Product)
  | .completed true body => .ok body
  | .completed false _ => .error ()
  | .netError => .error ()
  | .timeout => .error ()

/-- Embedding of `AdminPanel.loadProducts`: catches the error re-thrown by
`AdminPanel.apiRequest` and falls back to `loadMockProducts`. -/
def adminLoadProducts (o : FetchOutcome (List Product)) : List Product :=
  match adminApiRequest o with
  | .ok data => data
  | .error _ => mockProducts

/-- C5 counterexample: on a network error (and likewise on a non-2xx
response) the admin variant resolves to an error — the failure *is*
propagated to the caller, unlike what the claim states for both
variants. -/
theorem adminApiRequest_error_counterexample :
    adminApiRequest FetchOutcome.netError = Except.error ()
    ∧ adminApiRequest (FetchOutcome.completed false mockProducts)
        = Except.error ()
    ∧ adminApiRequest FetchOutcome.netError ≠ Except.ok mockProducts := by
  refine ⟨rfl, rfl, ?_⟩
  exact fun h => Except.noConfusion h

/-- C5 (amended): the product-page variant always resolves with either the
parsed 2xx JSON body or the static mock product and never propagates an
error; the admin variant returns the parsed 2xx body but re-throws every
network error, non-2xx status or timeout to its caller — and it is that
caller, `loadProducts`, which then falls back to the static mock
dataset. -/
theorem apiRequest_fallback_spec (productId : Nat) :
    (∀ body, productApiRequest productId (.completed true body) = body)
    ∧ (∀ o : FetchOutcome Product, (∀ body, o ≠ .completed true body) →
        productApiRequest productId o = getMockProduct productId)
    ∧ (∀ body, adminApiRequest (.completed true body) = .ok body)
    ∧ (∀ o : FetchOutcome (List Product),
        (∀ body, o ≠ .completed true body) →
        adminApiRequest o = .error () ∧ adminLoadProducts o = mockProducts) := by
  refine ⟨fun body => rfl, ?_, fun body => rfl, ?_⟩
  · intro o h
    cases o with
    | completed ok body =>
      cases ok with
      | true => exact absurd rfl (h body)
      | false => rfl
    | netError => rfl
    | timeout => rfl
  · intro o h
    cases o with
    | completed ok body =>
      cases ok with
      | true => exact absurd rfl (h body)
      | false => exact ⟨rfl, rfl⟩
    | netError => exact ⟨rfl, rfl⟩
    | timeout => exact ⟨rfl, rfl⟩

/-- Witness for C5 (amended) at product id 2 and a network-error
outcome. -/
theorem apiRequest_fallback_spec_witness :
    productApiRequest 2 FetchOutcome.netError = getMockProduct 2
    ∧ adminApiRequest FetchOutcome.netError = Except.error ()
    ∧ adminLoadProducts FetchOutcome.netError = mockProducts :=
  ⟨(apiRequest_fallback_spec 2).2.1 FetchOutcome.netError
      (fun body h => FetchOutcome.noConfusion h),
   ((apiRequest_fallback_spec 2).2.2.2 FetchOutcome.netError
      (fun body h => FetchOutcome.noConfusion h)).1,
   ((apiRequest_fallback_spec 2).2.2.2 FetchOutcome.netError
      (fun body h => FetchOutcome.noConfusion h)).2⟩

/-! ## Pagination state machine (`goToPage`, `filterProducts`,
`renderProducts`/`renderPagination` in the admin script) -/

/-- The abstract UI state the pagination logic works on: the loaded
product list, the two filter inputs, and `this.currentPage`. -/
structure AdminState where
  products : List Product
  searchInput : String
  categoryFilter : String
  currentPage : Nat
deriving DecidableEq, Repr

/-- The filtered list `renderProducts` works from in state `st`. -/
def filteredOf (st : AdminState) : List Product :=
  getFilteredProducts st.searchInput st.categoryFilter st.products

/-- The value `this.totalPages` as recomputed by `renderPagination` in state `st`. -/
def totalPagesOf (st : AdminState) : Nat :=
  totalPagesFor (filteredOf st).length

/-- The page arguments of the enabled pagination buttons rendered by
`renderPagination` in state `st`: no controls at all when at most one page
exists; otherwise Previous (`currentPage - 1`, disabled on page 1), a
numbered button for each `i ∈ [1, totalPages]` passing the sliding-window
condition `i = 1 ∨ i = totalPages ∨ currentPage - 2 ≤ i ≤ currentPage + 2`
(evaluated over ℤ, as JS numbers go negative), and Next
(`currentPage + 1`, disabled on the last page). -/
def clickablePages (st : AdminState) : List Nat :=
  if totalPagesOf st ≤ 1 then []
  else
    (if st.currentPage = 1 then [] else [st.currentPage - 1])
    ++ (((List.range (totalPagesOf st)).map (· + 1)).filter (fun i =>
          i == 1 || i == totalPagesOf st
            || (decide ((st.currentPage : Int) - 2 ≤ (i : Int))
                && decide ((i : Int) ≤ (st.currentPage : Int) + 2))))
    ++ (if st.currentPage = totalPagesOf st then [] else [st.currentPage + 1])

/-- One UI step: a search/category change (`filterProducts` resets
`currentPage` to 1), a click on an enabled pagination button (`goToPage p`
with `p` among the rendered, enabled buttons), or a re-render
(`renderProducts`, which does not change the abstract state). -/
inductive AdminStep : AdminState → AdminState → Prop
  | filterProducts (st : AdminState) (s c : String) :
      AdminStep st { st with searchInput := s, categoryFilter := c,
                             currentPage := 1 }
  | goToPage (st : AdminState) (p : Nat) (hp : p ∈ clickablePages st) :
      AdminStep st { st with currentPage := p }
  | renderProducts (st : AdminState) : AdminStep st st

/-- States reachable from a freshly initialized panel holding the loaded
product list `ps` (`currentPage = 1`, empty search and category inputs). -/
inductive AdminReachable (ps : List Product) : AdminState → Prop
  | init : AdminReachable ps ⟨ps, "", "", 1⟩
  | step {st st' : AdminState} :
      AdminReachable ps st → AdminStep st st' → AdminReachable ps st'

/-- A filter step with a search term matching no product: 4 mock products,
search "zzzz" → 0 filtered items → `totalPages = 0`. -/
def emptyFilterState : AdminState :=
  { products := mockProducts, searchInput := "zzzz", categoryFilter := "",
    currentPage := 1 }

/-- C3 counterexample: a reachable state (filter the mock products by a
term matching nothing) in which `totalPages = ceil(0 / 10) = 0` while
`currentPage = 1`, so the current page does *not* lie within
`[1, totalPages]`. -/
theorem pagination_range_counterexample :
    AdminReachable mockProducts emptyFilterState
    ∧ emptyFilterState.currentPage = 1
    ∧ totalPagesOf emptyFilterState = 0
    ∧ ¬(emptyFilterState.currentPage ≤ totalPagesOf emptyFilterState) := by
  refine ⟨?_, rfl, by decide, by decide⟩
  exact AdminReachable.step AdminReachable.init
    (AdminStep.filterProducts ⟨mockProducts, "", "", 1⟩ "zzzz" "")

/-- C3 (amended): in every reachable state the current page lies within
`[1, max 1 totalPages]` — the lower end must be `max 1 totalPages` rather
than `totalPages` because an empty filtered list makes `totalPages = 0`
while the page is reset to 1. -/
theorem currentPage_in_range (ps : List Product) (st : AdminState)
    (h : AdminReachable ps st) :
    1 ≤ st.currentPage ∧ st.currentPage ≤ max 1 (totalPagesOf st) := by
  induction h with
  | init => exact ⟨le_refl 1, le_max_left 1 _⟩
  | @step st st' hreach hstep ih =>
    cases hstep with
    | filterProducts s c =>
      exact ⟨le_refl 1, le_max_left 1 _⟩
    | goToPage p hp =>
      have htp : totalPagesOf { st with currentPage := p } = totalPagesOf st :=
        rfl
      rw [htp]
      unfold clickablePages at hp
      by_cases hone : totalPagesOf st ≤ 1
      · rw [if_pos hone] at hp
        exact absurd hp (List.not_mem_nil p)
      · rw [if_neg hone] at hp
        rcases List.mem_append.mp hp with hp2 | hnext
      
        · rcases List.mem_append.mp hp2 with hprev | hnum
          · by_cases hc1 : st.currentPage = 1
            · rw [if_pos hc1] at hprev
              exact absurd hprev (List.not_mem_nil p)
            · rw [if_neg hc1] at hprev
              have hpe : p = st.currentPage - 1 := List.mem_singleton.mp hprev
              show 1 ≤ p ∧ p ≤ max 1 (totalPagesOf st)
              omega
          · rcases List.mem_filter.mp hnum with ⟨hmem, _⟩
            rcases List.mem_map.mp hmem with ⟨i, hi, hie⟩
            have hir := List.mem_range.mp hi
            show 1 ≤ p ∧ p ≤ max 1 (totalPagesOf st)
            omega
        · by_cases hcl : st.currentPage = totalPagesOf st
          · rw [if_pos hcl] at hnext
            exact absurd hnext (List.not_mem_nil p)
          · rw [if_neg hcl] at hnext
            have hpe : p = st.currentPage + 1 := List.mem_singleton.mp hnext
            show 1 ≤ p ∧ p ≤ max 1 (totalPagesOf st)
            omega
    | renderProducts => exact ih

/-- Witness for C3 (amended) at the freshly initialized state over the
mock products. -/
theorem currentPage_in_range_witness :
    AdminReachable mockProducts ⟨mockProducts, "", "", 1⟩
    ∧ 1 ≤ (AdminState.mk mockProducts "" "" 1).currentPage
    ∧ (AdminState.mk mockProducts "" "" 1).currentPage
        ≤ max 1 (totalPagesOf (AdminState.mk mockProducts "" "" 1)) :=
  ⟨AdminReachable.init,
   (currentPage_in_range mockProducts _ AdminReachable.init).1,
   (currentPage_in_range mockProducts _ AdminReachable.init).2⟩
